import Mathlib

/-!
Verification of the CppP2PChat peer session protocol layer against its
specification.  The definitions below are shallow embeddings of the C++
source: `p2p::Message` and its codec from `src/message.cpp`, the session
stream-reading loop and handshake handling from the asio-based network
managers, and the `PeerManager` registry.  Machine integers are modelled
as `Nat`/`Int` with explicit `% 2 ^ w` at the points where the C++ code
casts or can overflow.
-/

/-- Wire-level decode outcomes of `Message::deserialize` (message.cpp).
`frameTooShort` and `payloadSizeMismatch` are the two `std::runtime_error`
throw sites: a buffer shorter than the 13-byte header, and a declared
payload length whose (wrapping, see below) size check fails.
`outOfBoundsRead` is not a throw site: it marks the undefined behavior
reached when the `uint32_t` sum `13 + payloadSize` wraps, the size check
at message.cpp:46 therefore passes on a buffer that really holds fewer
than `13 + payloadSize` bytes, and `payload_.assign` then reads past the
end of the buffer. -/
inductive DecodeError where
  | frameTooShort
  | payloadSizeMismatch
  | outOfBoundsRead
  deriving DecidableEq

/-- A `p2p::Message` (message.hpp): the raw type byte (the C++ enum is
`uint8_t`-backed, and `deserialize` casts an arbitrary byte into it, so any
value below 256 can occur), the payload bytes, and the timestamp in signed
64-bit milliseconds since the epoch. -/
structure Message where
  type : Nat
  payload : List Nat
  timestamp : Int
  deriving DecidableEq

/-- Big-endian value of a byte list, folding `acc * 256 + b` left to right.
This is how both `Message::deserialize` and the session header readers
recombine length and timestamp fields; on bytes (values < 256) the C++
shift-and-or form `(acc << 8) | b` is exactly this arithmetic. -/
def beVal (bytes : List Nat) : Nat :=
  bytes.foldl (fun acc b => acc * 256 + b) 0

/-- Message::serialize (message.cpp lines 10-31): push the type byte, the
payload size as the four big-endian bytes of the `uint32_t` cast of
`payload_.size()`, the millisecond timestamp as the eight big-endian bytes
of its two's-complement `int64_t` representation (C++ `(ts >> (i*8)) & 0xFF`
on the signed value yields the base-256 digits of `ts mod 2^64`), then the
payload bytes. -/
def Message.serialize (m : Message) : List Nat :=
  let sz := m.payload.length % 2 ^ 32
  let ts := (m.timestamp % (2 ^ 64 : Int)).toNat
  m.type % 256 ::
    sz / 2 ^ 24 % 256 :: sz / 2 ^ 16 % 256 :: sz / 2 ^ 8 % 256 :: sz % 256 ::
    ts / 2 ^ 56 % 256 :: ts / 2 ^ 48 % 256 :: ts / 2 ^ 40 % 256 ::
    ts / 2 ^ 32 % 256 :: ts / 2 ^ 24 % 256 :: ts / 2 ^ 16 % 256 ::
    ts / 2 ^ 8 % 256 :: ts % 256 :: m.payload

/-- Payload length declared by a frame's header: the big-endian value of
bytes 1 to 4, as computed by `Message::deserialize` and by
`Session::doReadHeader`. -/
def declaredLen (data : List Nat) : Nat :=
  beVal ((data.drop 1).take 4)

/-- Message::deserialize (message.cpp lines 33-60): reject buffers shorter
than 13 bytes, read the declared payload length from bytes 1-4, then run
the size check `data.size() < 13 + payloadSize`.  In the C++ this sum is
computed in `uint32_t` (the `int` literal 13 converts to unsigned), so it
wraps modulo 2^32 for declared lengths of 4294967283 and above; the model
reproduces the wrap.  When the wrapped check passes but the buffer really
holds fewer than `13 + payloadSize` bytes, the subsequent
`payload_.assign(data.begin() + 13, data.begin() + 13 + payloadSize)`
reads out of bounds — undefined behavior, modelled as the distinguished
`outOfBoundsRead` result.  Otherwise the signed millisecond timestamp is
rebuilt from bytes 5-12 (the C++ shift-or loop into an `int64_t`
reinterprets the 64-bit big-endian value as two's complement) and the
payload taken from the bytes after the header.  The type byte is accepted
unconditionally. -/
def Message.deserialize (data : List Nat) : Except DecodeError Message :=
  if data.length < 13 then .error .frameTooShort
  else
    let payloadSize := declaredLen data
    if data.length < (13 + payloadSize) % 2 ^ 32 then .error .payloadSizeMismatch
    else if data.length < 13 + payloadSize then .error .outOfBoundsRead
    else
      let tsN := beVal ((data.drop 5).take 8)
      let ts : Int := if tsN < 2 ^ 63 then (tsN : Int) else (tsN : Int) - 2 ^ 64
      .ok ⟨data.getD 0 0, (data.drop 13).take payloadSize, ts⟩

/-- Message::createHandshakeMessage (message.cpp lines 67-80): the payload is
the peer id length as a 2-byte big-endian `uint16_t` cast (so it wraps mod
2^16 for ids of 65536 bytes or more), the peer id bytes, then the public key
bytes.  The C++ constructor stamps the creation time; the clock is passed
here explicitly as `now`. -/
def Message.createHandshakeMessage (peerId : List Nat) (publicKey : List Nat)
    (now : Int) : Message :=
  let idLen := peerId.length % 2 ^ 16
  ⟨1, idLen / 256 % 256 :: idLen % 256 :: (peerId ++ publicKey), now⟩

/-- Handshake payload parsing as done by
`NetworkManager::Impl::HandleSessionMessage` (Network_coroutines_wip.cpp
lines 124-129): require at least 2 payload bytes, read the big-endian id
length, require at least `2 + idLen` payload bytes, and split the rest into
the id bytes and the trailing public key bytes.  Returns `none` where the
C++ guards fail (in which case the handler simply does not bind the
session). -/
def parseHandshakePayload (payload : List Nat) : Option (List Nat × List Nat) :=
  if 2 ≤ payload.length then
    let idLen := payload.getD 0 0 * 256 + payload.getD 1 0
    if 2 + idLen ≤ payload.length then
      some ((payload.drop 2).take idLen, payload.drop (2 + idLen))
    else none
  else none

/-- Stream-read errors of the session read loop (`Session::Run` in
Network_coroutines_wip.cpp, `Session::doReadHeader`/`doReadPayload` in the
callback variant): the transport closing before enough bytes arrive, the
10 MiB cap check on the declared payload length, and a decode failure of
the assembled frame. -/
inductive ReadError where
  | connectionClosed
  | messageTooLarge
  | decodeFailed (e : DecodeError)
  deriving DecidableEq

/-- One iteration of the session read loop (`Session::Run`,
Network_coroutines_wip.cpp lines 63-93, structurally identical to
`doReadHeader` + `doReadPayload` at lines 314-363 of the callback variant):
read exactly 13 header bytes, parse the declared payload length from the
header, fail with the oversize error if it exceeds `1024 * 1024 * 10`
bytes — this happens before the payload buffer is sized or any payload
byte is read — then read exactly that many payload bytes, deserialize the
assembled frame, and return it with the unconsumed remainder of the
stream. -/
def readFrame (stream : List Nat) : Except ReadError (Message × List Nat) :=
  if stream.length < 13 then .error .connectionClosed
  else
    let hdr := stream.take 13
    let payloadSize := declaredLen hdr
    if 10485760 < payloadSize then .error .messageTooLarge
    else if (stream.drop 13).length < payloadSize then .error .connectionClosed
    else
      match Message.deserialize (hdr ++ (stream.drop 13).take payloadSize) with
      | .ok msg => .ok (msg, stream.drop (13 + payloadSize))
      | .error e => .error (.decodeFailed e)

/-- Session identity state as seen by `HandleSessionMessage`: the optional
bound peer id (`peerId_`, empty string meaning unbound in the C++, here
`none`) and the `isOutgoing_` role flag (`true` for outbound connects,
`false` for accepted inbound sessions). -/
structure SessionSt where
  peerId : Option (List Nat)
  isOutgoing : Bool
  deriving DecidableEq

/-- Observable outcome of one `HandleSessionMessage` call: the session
state afterwards, whether a HANDSHAKE response was sent back on the
session, and the user message callback invocation (peer id passed with the
message), if any. -/
structure HandleResult where
  sess : SessionSt
  sentHandshakeResponse : Bool
  userCallback : Option (List Nat × Message)
  deriving DecidableEq

/-- NetworkManager::Impl::HandleSessionMessage (Network_coroutines_wip.cpp
lines 122-173): on a HANDSHAKE frame received by a session with no bound
peer id, parse the payload; on success call `SetPeerId` with the parsed id
and send a HANDSHAKE response back only when the session is not outgoing.
`SetPeerId` stores the id into the `peerId_` string whose empty value is
the unbound sentinel (`HasPeerId()` is `!peerId_.empty()`), so a handshake
whose parsed id is empty (idLen = 0) leaves the session unbound even
though the response is still sent; binding to `some` therefore happens
only for a non-empty parsed id.  Afterwards (in all cases) the message is
forwarded to the user message handler exactly when `HasPeerId()` now
holds, under that id. -/
def handleSessionMessage (s : SessionSt) (msg : Message) : HandleResult :=
  let step :=
    if msg.type = 1 ∧ s.peerId = none then
      match parseHandshakePayload msg.payload with
      | some (pid, _) =>
        ({ s with peerId := if pid = [] then none else some pid }, !s.isOutgoing)
      | none => (s, false)
    else (s, false)
  { sess := step.1
    sentHandshakeResponse := step.2
    userCallback := step.1.peerId.map (fun pid => (pid, msg)) }

/-- A frame that actually binds an unbound session in
`HandleSessionMessage`: a HANDSHAKE whose payload parses and whose parsed
peer id is non-empty (a zero-length id passes the parse guards but
`SetPeerId` of the empty string leaves `HasPeerId()` false). -/
def bindingHandshake (msg : Message) : Bool :=
  msg.type == 1 &&
    (match parseHandshakePayload msg.payload with
     | some (pid, _) => !pid.isEmpty
     | none => false)

/-- Sequential processing of the frames received on one session, in receipt
order (the read loop never processes a second frame before the handler for
the first returns): threads the session state through
`handleSessionMessage` and collects every user-callback invocation. -/
def processFrames (s : SessionSt) :
    List Message → SessionSt × List (List Nat × Message)
  | [] => (s, [])
  | msg :: rest =>
    let r := handleSessionMessage s msg
    let next := processFrames r.sess rest
    (next.1, r.userCallback.toList ++ next.2)

/-- A `p2p::PeerInfo` (peer_manager.hpp): registry value carrying its own
key `id`; `lastSeen` is a millisecond timestamp. -/
structure PeerInfo where
  id : String
  address : String
  port : Nat
  publicKey : List Nat
  isConnected : Bool
  lastSeen : Int
  deriving DecidableEq

/-- Insert-or-overwrite by key, the effect of `peers_[peer.id] = peer` in
`PeerManager::addPeer` on the `unordered_map`: replace the entry whose key
matches, otherwise add a new entry.  The registry is modelled as the list
of the map's entries (each `PeerInfo` stored under its `id`). -/
def upsertEntry (p : PeerInfo) : List PeerInfo → List PeerInfo
  | [] => [p]
  | q :: rest => if q.id = p.id then p :: rest else q :: upsertEntry p rest

/-- PeerManager::addPeer (lines 157-160 of the peer manager source). -/
def addPeer (p : PeerInfo) (ps : List PeerInfo) : List PeerInfo :=
  upsertEntry p ps

/-- PeerManager::removePeer: `peers_.erase(peerId)` — drop the entry with
the matching key, if any. -/
def removePeer (pid : String) : List PeerInfo → List PeerInfo
  | [] => []
  | q :: rest => if q.id = pid then rest else q :: removePeer pid rest

/-- PeerManager::updatePeerStatus (lines 167-174): find the entry for
`peerId`; if present set its `isConnected` flag and refresh `lastSeen` to
the current clock (passed explicitly as `now`); if absent do nothing. -/
def updatePeerStatus (pid : String) (connected : Bool) (now : Int) :
    List PeerInfo → List PeerInfo
  | [] => []
  | q :: rest =>
    if q.id = pid then
      { q with isConnected := connected, lastSeen := now } :: rest
    else q :: updatePeerStatus pid connected now rest

/-- PeerManager::getPeer: lookup by key. -/
def getPeer (pid : String) (ps : List PeerInfo) : Option PeerInfo :=
  ps.find? (fun q => q.id == pid)

/-- PeerManager::getAllPeers (lines 185-192): copy out every stored entry. -/
def getAllPeers (ps : List PeerInfo) : List PeerInfo := ps

/-- PeerManager::getConnectedPeers: the stored entries whose `isConnected`
flag is set. -/
def getConnectedPeers (ps : List PeerInfo) : List PeerInfo :=
  ps.filter (fun q => q.isConnected)

/-- One registry operation, as in the claim about operation sequences:
`addPeer`, `removePeer`, or `updatePeerStatus` (the latter with its clock
value made explicit). -/
inductive RegOp where
  | add (p : PeerInfo)
  | remove (pid : String)
  | update (pid : String) (connected : Bool) (now : Int)

/-- Apply one registry operation to a registry state. -/
def applyOp (ps : List PeerInfo) : RegOp → List PeerInfo
  | .add p => addPeer p ps
  | .remove pid => removePeer pid ps
  | .update pid c now => updatePeerStatus pid c now ps

/-- Apply a finite sequence of registry operations, left to right. -/
def applyOps (ps : List PeerInfo) (ops : List RegOp) : List PeerInfo :=
  ops.foldl applyOp ps

/-- Reference id set written from the claim's words, for comparison with
the registry implementation: the ids added and not subsequently removed,
maintained duplicate-free — an `add` inserts the id if absent, a `remove`
erases it, a status update never changes the id set. -/
def specIds (ids : List String) : List RegOp → List String
  | [] => ids
  | .add p :: rest => specIds (if p.id ∈ ids then ids else ids ++ [p.id]) rest
  | .remove pid :: rest => specIds (ids.erase pid) rest
  | .update _ _ _ :: rest => specIds ids rest

/-- Big-endian byte encoding of a value into a fixed number of bytes, most
significant first: the reference layout the spec describes for the 4-byte
length field and the 8-byte timestamp field of the frame header. -/
def beBytes : Nat → Nat → List Nat
  | 0, _ => []
  | k + 1, n => n / 256 ^ k % 256 :: beBytes k n

/-- Concrete frame whose header declares a payload length of 10485761 bytes
(one over the 10 MiB transport cap) and which supplies exactly that many
payload bytes: type byte 0, length bytes 0 0 160 1 (big-endian 10485761),
eight zero timestamp bytes, then the payload. -/
def overCapFrame : List Nat :=
  0 :: 0 :: 160 :: 0 :: 1 :: 0 :: 0 :: 0 :: 0 :: 0 :: 0 :: 0 :: 0 ::
    List.replicate 10485761 7

/-- Helper: `Message::deserialize` on a buffer written as an explicit
13-byte header followed by the payload, when the declared length matches
the payload length exactly: it succeeds, returning the type byte, the
payload, and the sign-interpreted big-endian timestamp. -/
theorem deserialize_header_cons (b0 b1 b2 b3 b4 c0 c1 c2 c3 c4 c5 c6 c7 : Nat)
    (pl : List Nat)
    (h : ((((0 * 256 + b1) * 256 + b2) * 256 + b3) * 256 + b4) = pl.length) :
    Message.deserialize
      (b0 :: b1 :: b2 :: b3 :: b4 :: c0 :: c1 :: c2 :: c3 :: c4 :: c5 :: c6 :: c7 :: pl) =
    .ok ⟨b0, pl,
      if ((((((((0 * 256 + c0) * 256 + c1) * 256 + c2) * 256 + c3) * 256 + c4) * 256 + c5) * 256 + c6) * 256 + c7) < 2 ^ 63
      then ((((((((((0 * 256 + c0) * 256 + c1) * 256 + c2) * 256 + c3) * 256 + c4) * 256 + c5) * 256 + c6) * 256 + c7) : Nat) : Int)
      else ((((((((((0 * 256 + c0) * 256 + c1) * 256 + c2) * 256 + c3) * 256 + c4) * 256 + c5) * 256 + c6) * 256 + c7) : Nat) : Int) - 2 ^ 64⟩ := by
  simp only [Message.deserialize, declaredLen, beVal, List.drop_succ_cons,
    List.take_succ_cons, List.take_zero, List.drop_zero, List.foldl,
    List.length_cons, List.getD_cons_zero]
  rw [h]
  simp only [List.take_length]
  rw [if_neg (by omega), if_neg (by omega), if_neg (by omega)]

/-- Helper: recombining the eight big-endian base-256 digits of a value
below 2^64 yields the value back. -/
theorem beDigits8_recompose (n : Nat) (h : n < 2 ^ 64) :
    ((((((((0 * 256 + n / 2 ^ 56 % 256) * 256 + n / 2 ^ 48 % 256) * 256 +
      n / 2 ^ 40 % 256) * 256 + n / 2 ^ 32 % 256) * 256 + n / 2 ^ 24 % 256) * 256 +
      n / 2 ^ 16 % 256) * 256 + n / 2 ^ 8 % 256) * 256 + n % 256) = n := by
  omega

/-- Helper: parsing the payload built by `createHandshakeMessage` always
succeeds and splits the concatenated id and key bytes at the (possibly
wrapped) encoded id length. -/
theorem parse_create (peerId publicKey : List Nat) (now : Int) :
    parseHandshakePayload (Message.createHandshakeMessage peerId publicKey now).payload =
      some ((peerId ++ publicKey).take (peerId.length % 2 ^ 16),
            (peerId ++ publicKey).drop (peerId.length % 2 ^ 16)) := by
  have hmod : peerId.length % 2 ^ 16 < 2 ^ 16 := Nat.mod_lt _ (by norm_num)
  have hle : peerId.length % 2 ^ 16 ≤ peerId.length := Nat.mod_le _ _
  simp only [Message.createHandshakeMessage, parseHandshakePayload,
    List.length_cons, List.getD_cons_zero, List.getD_cons_succ,
    List.drop_succ_cons, List.drop_zero, List.length_append]
  rw [if_pos (by omega)]
  rw [show peerId.length % 2 ^ 16 / 256 % 256 * 256 + peerId.length % 2 ^ 16 % 256 =
    peerId.length % 2 ^ 16 from by omega]
  rw [if_pos (by omega)]
  rw [show 2 + peerId.length % 2 ^ 16 = peerId.length % 2 ^ 16 + 2 from by omega]
  rfl

/-- Helper: looking up a key that matches the head entry of the registry
list returns the head. -/
theorem getPeer_cons_eq (r : PeerInfo) (rest : List PeerInfo) (pid : String)
    (h : r.id = pid) : getPeer pid (r :: rest) = some r := by
  simp only [getPeer]
  rw [List.find?_cons_of_pos _ (by simp [h])]

/-- Helper: looking up a key that does not match the head entry skips the
head. -/
theorem getPeer_cons_ne (r : PeerInfo) (rest : List PeerInfo) (pid : String)
    (h : r.id ≠ pid) : getPeer pid (r :: rest) = getPeer pid rest := by
  simp only [getPeer]
  rw [List.find?_cons_of_neg _ (by simp [h])]

/-- Helper: the key list of the registry after an insert-or-overwrite: the
keys are unchanged when the inserted id was already present, and gain the
new id at the end otherwise. -/
theorem map_id_upsertEntry (p : PeerInfo) (ps : List PeerInfo) :
    (upsertEntry p ps).map (fun q => q.id) =
      if p.id ∈ ps.map (fun q => q.id) then ps.map (fun q => q.id)
      else ps.map (fun q => q.id) ++ [p.id] := by
  induction ps with
  | nil => simp [upsertEntry]
  | cons r rest ih =>
    by_cases hr : r.id = p.id
    · simp [upsertEntry, hr]
    · simp only [upsertEntry, if_neg hr, List.map_cons, ih, List.mem_cons]
      by_cases hm : p.id ∈ rest.map (fun q => q.id)
      · simp [hm, Ne.symm hr]
      · simp [hm, Ne.symm hr]

/-- Helper: the key list of the registry after a removal is the original
key list with that key erased. -/
theorem map_id_removePeer (pid : String) (ps : List PeerInfo) :
    (removePeer pid ps).map (fun q => q.id) =
      (ps.map (fun q => q.id)).erase pid := by
  induction ps with
  | nil => simp [removePeer]
  | cons r rest ih =>
    by_cases hr : r.id = pid
    · simp [removePeer, hr, List.erase_cons_head]
    · simp only [removePeer, if_neg hr, List.map_cons, List.erase_cons]
      rw [if_neg (by simp [hr]), ih]

/-- Helper: a status update never changes the registry's key list. -/
theorem map_id_updatePeerStatus (pid : String) (c : Bool) (now : Int)
    (ps : List PeerInfo) :
    (updatePeerStatus pid c now ps).map (fun q => q.id) =
      ps.map (fun q => q.id) := by
  induction ps with
  | nil => rfl
  | cons r rest ih =>
    by_cases hr : r.id = pid
    · simp [updatePeerStatus, hr]
    · simp [updatePeerStatus, hr, ih]

/-- Helper: running a sequence of registry operations tracks, key-for-key,
the reference id set computed by `specIds`. -/
theorem ids_applyOps (ops : List RegOp) :
    ∀ ps : List PeerInfo,
      (applyOps ps ops).map (fun q => q.id) =
        specIds (ps.map (fun q => q.id)) ops := by
  induction ops with
  | nil => intro ps; rfl
  | cons op rest ih =>
    intro ps
    cases op with
    | add p =>
      show (applyOps (addPeer p ps) rest).map (fun q => q.id) =
        specIds (if p.id ∈ ps.map (fun q => q.id) then ps.map (fun q => q.id)
          else ps.map (fun q => q.id) ++ [p.id]) rest
      rw [ih (addPeer p ps)]
      congr 1
      exact map_id_upsertEntry p ps
    | remove pid =>
      show (applyOps (removePeer pid ps) rest).map (fun q => q.id) =
        specIds ((ps.map (fun q => q.id)).erase pid) rest
      rw [ih (removePeer pid ps)]
      congr 1
      exact map_id_removePeer pid ps
    | update pid c now =>
      show (applyOps (updatePeerStatus pid c now ps) rest).map (fun q => q.id) =
        specIds (ps.map (fun q => q.id)) rest
      rw [ih (updatePeerStatus pid c now ps)]
      congr 1
      exact map_id_updatePeerStatus pid c now ps

/-- Helper: the reference id set stays duplicate-free. -/
theorem specIds_nodup (ops : List RegOp) :
    ∀ ids : List String, ids.Nodup → (specIds ids ops).Nodup := by
  induction ops with
  | nil => intro ids h; exact h
  | cons op rest ih =>
    intro ids h
    cases op with
    | add p =>
      show (specIds (if p.id ∈ ids then ids else ids ++ [p.id]) rest).Nodup
      apply ih
      by_cases hm : p.id ∈ ids
      · rwa [if_pos hm]
      · rw [if_neg hm]
        simp [List.nodup_append, h, hm]
    | remove pid =>
      exact ih _ (h.erase pid)
    | update pid c now =>
      exact ih _ h

/-- Claim C1: wire codec round-trip.  For every message with a valid type
byte, a payload of at most 10 MiB, and a millisecond timestamp representable
as a signed 64-bit integer, deserializing the bytes produced by serializing
the message yields the message back: same type, same payload bytes, same
millisecond timestamp. -/
theorem wire_roundtrip (m : Message) (ht : m.type < 256)
    (hp : m.payload.length ≤ 10485760)
    (hlo : -(2 ^ 63) ≤ m.timestamp) (hhi : m.timestamp < 2 ^ 63) :
    Message.deserialize (Message.serialize m) = .ok m := by
  obtain ⟨t, pl, ts⟩ := m
  simp only at ht hp hlo hhi
  have hszeq : pl.length % 2 ^ 32 = pl.length := Nat.mod_eq_of_lt (by omega)
  have h0 : (0 : Int) ≤ ts % 2 ^ 64 := Int.emod_nonneg ts (by norm_num)
  have h1 : ts % 2 ^ 64 < 2 ^ 64 := Int.emod_lt_of_pos ts (by norm_num)
  have hN : (ts % (2 ^ 64 : Int)).toNat < 2 ^ 64 := by omega
  simp only [Message.serialize, hszeq]
  rw [deserialize_header_cons _ _ _ _ _ _ _ _ _ _ _ _ _ _ (by omega)]
  rw [beDigits8_recompose _ hN]
  rw [Nat.mod_eq_of_lt ht]
  have hts : (if (ts % (2 ^ 64 : Int)).toNat < 2 ^ 63
      then (((ts % (2 ^ 64 : Int)).toNat : Nat) : Int)
      else (((ts % (2 ^ 64 : Int)).toNat : Nat) : Int) - 2 ^ 64) = ts := by
    split_ifs with hc <;> omega
  rw [hts]

/-- Witness for C1: the round trip evaluated at a concrete message. -/
theorem wire_roundtrip_witness :
    Message.deserialize (Message.serialize ⟨0, [1, 2], 42⟩) = .ok ⟨0, [1, 2], 42⟩ :=
  wire_roundtrip ⟨0, [1, 2], 42⟩ (by decide) (by decide) (by decide) (by decide)

/-- Claim C2 (code bug): short buffers do fail with the frame-too-short
error and ordinary truncated buffers with the payload-size-mismatch error,
but the claim's universal truncation statement is false of the code.  At a
13-byte buffer declaring 4294967295 payload bytes — the exact input of the
repo's own `MessageTest.DeserializeInvalidMessage` test, which expects a
throw — the `uint32_t` sum `13 + payloadSize` wraps to 12, the size check
at message.cpp:46 passes, and `payload_.assign` reads out of bounds
(undefined behavior) instead of throwing.  The three evaluations below
exhibit a passing short input, a passing truncated input, and the failing
wrapped input. -/
theorem deserialize_truncation_code_bug :
    Message.deserialize [1, 2, 3] = .error .frameTooShort ∧
    Message.deserialize [0, 0, 0, 0, 1, 0, 0, 0, 0, 0, 0, 0, 0] =
      .error .payloadSizeMismatch ∧
    Message.deserialize [0, 255, 255, 255, 255, 0, 0, 0, 0, 0, 0, 0, 0] =
      .error .outOfBoundsRead :=
  ⟨rfl, rfl, rfl⟩

/-- Counterexample for C3: `Message::deserialize` itself enforces no 10 MiB
cap.  On a concrete buffer whose header declares 10485761 payload bytes
(one over the cap) and which supplies exactly that many bytes, decoding
succeeds instead of failing with a payload size error as the claim
states. -/
theorem deserialize_accepts_over_cap :
    declaredLen overCapFrame = 10485761 ∧ 10485760 < 10485761 ∧
    Message.deserialize overCapFrame = .ok ⟨0, List.replicate 10485761 7, 0⟩ := by
  refine ⟨?_, by norm_num, ?_⟩
  · simp only [overCapFrame, declaredLen, beVal, List.drop_succ_cons,
      List.drop_zero, List.take_succ_cons, List.take_zero, List.foldl]
  · rw [show overCapFrame = 0 :: 0 :: 160 :: 0 :: 1 :: 0 :: 0 :: 0 :: 0 :: 0 ::
        0 :: 0 :: 0 :: List.replicate 10485761 7 from rfl]
    rw [deserialize_header_cons _ _ _ _ _ _ _ _ _ _ _ _ _ _
      (by simp only [List.length_replicate])]
    rw [show (if ((((((((0 * 256 + 0) * 256 + 0) * 256 + 0) * 256 + 0) * 256 + 0) *
          256 + 0) * 256 + 0) * 256 + 0) < 2 ^ 63
        then (((((((((0 * 256 + 0) * 256 + 0) * 256 + 0) * 256 + 0) * 256 + 0) *
          256 + 0) * 256 + 0) * 256 + 0 : Nat) : Int)
        else (((((((((0 * 256 + 0) * 256 + 0) * 256 + 0) * 256 + 0) * 256 + 0) *
          256 + 0) * 256 + 0) * 256 + 0 : Nat) : Int) - 2 ^ 64) = (0 : Int)
      from by norm_num]

/-- Claim C3 (amended): the 10 MiB transport cap is enforced by the session
read path, not by `Message::deserialize`.  Whenever the 13 header bytes read
from the stream declare a payload length over 10485760, the session read
fails with the oversize error, and the outcome is the same for every
possible continuation of the stream — the payload is never read or
buffered, so the check happens before any buffer of the declared size is
allocated. -/
theorem readFrame_cap (hdr rest : List Nat) (hlen : hdr.length = 13)
    (hcap : 10485760 < declaredLen hdr) :
    readFrame (hdr ++ rest) = .error .messageTooLarge := by
  simp only [readFrame]
  rw [List.take_left' hlen]
  rw [if_neg (by simp [List.length_append]; omega), if_pos hcap]

/-- Witness for C3 (amended): a concrete header declaring 10485761 payload
bytes makes the session read fail regardless of what follows. -/
theorem readFrame_cap_witness :
    readFrame ([0, 0, 160, 0, 1, 0, 0, 0, 0, 0, 0, 0, 0] ++ [1, 2, 3]) =
      .error .messageTooLarge :=
  readFrame_cap [0, 0, 160, 0, 1, 0, 0, 0, 0, 0, 0, 0, 0] [1, 2, 3]
    (by decide) (by decide)

/-- Claim C4: encode layout and totality.  Serializing a message whose type
byte is below 256 and whose payload length fits the 32-bit size field
produces exactly `13 + payloadLength` bytes: the type byte, the payload
length as 4 big-endian bytes, the millisecond timestamp as the 8 big-endian
bytes of its two's-complement 64-bit representation, then the payload. -/
theorem serialize_total_layout (m : Message) (ht : m.type < 256)
    (hp : m.payload.length < 2 ^ 32) :
    (Message.serialize m).length = 13 + m.payload.length ∧
    Message.serialize m =
      m.type :: (beBytes 4 m.payload.length ++
        (beBytes 8 ((m.timestamp % (2 ^ 64 : Int)).toNat) ++ m.payload)) := by
  obtain ⟨t, pl, ts⟩ := m
  simp only at ht hp
  have hszeq : pl.length % 2 ^ 32 = pl.length := Nat.mod_eq_of_lt hp
  constructor
  · simp [Message.serialize]
    omega
  · simp only [Message.serialize, hszeq, beBytes, List.cons_append, List.nil_append]
    norm_num [Nat.mod_eq_of_lt ht]

/-- Witness for C4: the layout evaluated at a concrete message with a
negative timestamp. -/
theorem serialize_total_layout_witness :
    (Message.serialize ⟨3, [5], -1⟩).length = 13 + (⟨3, [5], -1⟩ : Message).payload.length ∧
    Message.serialize ⟨3, [5], -1⟩ =
      (⟨3, [5], -1⟩ : Message).type :: (beBytes 4 (⟨3, [5], -1⟩ : Message).payload.length ++
        (beBytes 8 (((⟨3, [5], -1⟩ : Message).timestamp % (2 ^ 64 : Int)).toNat) ++
          (⟨3, [5], -1⟩ : Message).payload)) :=
  serialize_total_layout ⟨3, [5], -1⟩ (by decide) (by decide)

/-- Claim C5: unknown-type tolerance.  Any buffer of at least 13 bytes whose
declared payload length is covered by the supplied bytes deserializes
successfully even when its type byte is none of the seven defined
`MessageType` codes, and the resulting message carries that unrecognized
type byte. -/
theorem decode_unknown_type (data : List Nat) (h13 : 13 ≤ data.length)
    (hfit : 13 + declaredLen data ≤ data.length)
    (_hunk : data.getD 0 0 ∉ ([0, 1, 2, 3, 4, 5, 6] : List Nat)) :
    ∃ m, Message.deserialize data = .ok m ∧ m.type = data.getD 0 0 := by
  simp only [Message.deserialize]
  rw [if_neg (by omega), if_neg (by omega), if_neg (by omega)]
  exact ⟨_, rfl, rfl⟩

/-- Witness for C5: a frame with unassigned type byte 9 decodes
successfully and keeps that type byte. -/
theorem decode_unknown_type_witness :
    ∃ m, Message.deserialize [9, 0, 0, 0, 0, 0, 0, 0, 0, 0, 0, 0, 0] = .ok m ∧
      m.type = [9, 0, 0, 0, 0, 0, 0, 0, 0, 0, 0, 0, 0].getD 0 0 :=
  decode_unknown_type [9, 0, 0, 0, 0, 0, 0, 0, 0, 0, 0, 0, 0]
    (by decide) (by decide) (by decide)

/-- Claim C6: `updatePeerStatus` on an absent id is a silent no-op — for
every registry state, if the peer id is not in the map the registry is left
unchanged and no error is reported (the function returns normally); if the
id is present, that entry's `isConnected` flag is set to the given value
and its `lastSeen` refreshed to the current clock, and the lookup of every
other id is unchanged. -/
theorem updatePeerStatus_semantics :
    (∀ (ps : List PeerInfo) (pid : String) (c : Bool) (now : Int),
      getPeer pid ps = none → updatePeerStatus pid c now ps = ps) ∧
    (∀ (ps : List PeerInfo) (pid : String) (c : Bool) (now : Int) (p : PeerInfo),
      getPeer pid ps = some p →
        getPeer pid (updatePeerStatus pid c now ps) =
          some { p with isConnected := c, lastSeen := now } ∧
        ∀ q, q ≠ pid → getPeer q (updatePeerStatus pid c now ps) = getPeer q ps) := by
  constructor
  · intro ps pid c now h
    induction ps with
    | nil => rfl
    | cons r rest ih =>
      by_cases hr : r.id = pid
      · rw [getPeer_cons_eq r rest pid hr] at h
        exact absurd h (by simp)
      · rw [getPeer_cons_ne r rest pid hr] at h
        simp only [updatePeerStatus, if_neg hr]
        rw [ih h]
  · intro ps pid c now p h
    induction ps with
    | nil => exact absurd h (by simp [getPeer])
    | cons r rest ih =>
      by_cases hr : r.id = pid
      · have hp : p = r := by
          rw [getPeer_cons_eq r rest pid hr] at h
          exact (Option.some.inj h).symm
        subst hp
        refine ⟨?_, ?_⟩
        · simp only [updatePeerStatus, if_pos hr]
          exact getPeer_cons_eq _ _ _ hr
        · intro q hq
          simp only [updatePeerStatus, if_pos hr]
          rw [getPeer_cons_ne p rest q (fun hc => hq (hc.symm.trans hr)),
            getPeer_cons_ne ({ p with isConnected := c, lastSeen := now } : PeerInfo)
              rest q (fun hc => hq (hc.symm.trans hr))]
      · rw [getPeer_cons_ne r rest pid hr] at h
        obtain ⟨ih1, ih2⟩ := ih h
        refine ⟨?_, ?_⟩
        · simp only [updatePeerStatus, if_neg hr]
          rw [getPeer_cons_ne r _ pid hr]
          exact ih1
        · intro q hq
          simp only [updatePeerStatus, if_neg hr]
          by_cases hrq : r.id = q
          · rw [getPeer_cons_eq r _ q hrq, getPeer_cons_eq r rest q hrq]
          · rw [getPeer_cons_ne r _ q hrq, getPeer_cons_ne r rest q hrq]
            exact ih2 q hq

/-- Witness for C6: updating an absent id leaves a one-entry registry
untouched, and updating the present id sets its flag and clock. -/
theorem updatePeerStatus_semantics_witness :
    updatePeerStatus "b" true 5 [⟨"a", "h", 1, [], false, 0⟩] =
      [⟨"a", "h", 1, [], false, 0⟩] ∧
    getPeer "a" (updatePeerStatus "a" true 5 [⟨"a", "h", 1, [], false, 0⟩]) =
      some ⟨"a", "h", 1, [], true, 5⟩ :=
  ⟨updatePeerStatus_semantics.1 [⟨"a", "h", 1, [], false, 0⟩] "b" true 5 (by decide),
   (updatePeerStatus_semantics.2 [⟨"a", "h", 1, [], false, 0⟩] "a" true 5
     ⟨"a", "h", 1, [], false, 0⟩ (by decide)).1⟩

/-- Claim C7: handshake response asymmetry.  A call to the session message
handler sends a HANDSHAKE response back on the session exactly when the
session had no bound peer id, the frame is a HANDSHAKE whose payload
parses, and the session is inbound (not outgoing); in particular an
outbound session never sends a handshake in reaction to receiving one. -/
theorem handshake_response_iff (s : SessionSt) (msg : Message) :
    (handleSessionMessage s msg).sentHandshakeResponse = true ↔
      (s.peerId = none ∧ msg.type = 1 ∧
        (parseHandshakePayload msg.payload).isSome = true ∧
        s.isOutgoing = false) := by
  by_cases hc : msg.type = 1 ∧ s.peerId = none
  · cases hp : parseHandshakePayload msg.payload with
    | none => simp [handleSessionMessage, hc, hp]
    | some v =>
      cases v with
      | mk pid key => simp [handleSessionMessage, hc, hp, Bool.not_eq_true', hc.1, hc.2]
  · simp only [handleSessionMessage, if_neg hc]
    simp only [not_and] at hc
    constructor
    · intro hfalse
      exact absurd hfalse (by simp)
    · rintro ⟨h1, h2, _, _⟩
      exact absurd h1 (hc h2)

/-- Counterexample for C8: a frame that arrives on a session with no bound
peer id is not always dropped.  A well-formed HANDSHAKE frame received by
an unbound inbound session is delivered to the user message callback (under
the id it just bound), so the claim that every frame arriving before the
session is bound is dropped fails at this input. -/
theorem unbound_handshake_frame_delivered :
    (⟨none, false⟩ : SessionSt).peerId = none ∧
    (handleSessionMessage ⟨none, false⟩ ⟨1, [0, 1, 65, 9], 0⟩).userCallback =
      some ([65], ⟨1, [0, 1, 65, 9], 0⟩) := ⟨rfl, rfl⟩

/-- Helper: a frame that is not a binding handshake leaves an unbound
session unbound and produces no user callback (HANDSHAKE frames whose
parsed id is empty included: they may still trigger a response, but the
session state and the callback are untouched). -/
theorem nonbinding_frame_inert (so : Bool) (f : Message)
    (hbind : bindingHandshake f = false) :
    (handleSessionMessage ⟨none, so⟩ f).sess = ⟨none, so⟩ ∧
    (handleSessionMessage ⟨none, so⟩ f).userCallback = none := by
  by_cases htype : f.type = 1
  · cases hp : parseHandshakePayload f.payload with
    | none => simp [handleSessionMessage, htype, hp]
    | some v =>
      obtain ⟨pid, key⟩ := v
      have hpe : pid = [] := by
        simp [bindingHandshake, htype, hp] at hbind
        exact hbind
      subst hpe
      simp [handleSessionMessage, htype, hp]
  · simp [handleSessionMessage, htype]

/-- Claim C8 (amended): the user message callback is never invoked for a
session without a resolved peer id — every callback invocation carries the
session's then-bound id.  A frame processed on an unbound session causes
no callback and no session-state change unless it is a binding handshake,
that is a HANDSHAKE whose payload parses to a non-empty peer id (a
zero-length id passes the guards but the empty string is the C++ unbound
sentinel, so it neither binds nor reaches the callback); a binding
handshake binds the session to the parsed id and is itself delivered to
the callback under that id. -/
theorem callback_only_with_bound_id :
    (∀ s msg pid m, (handleSessionMessage s msg).userCallback = some (pid, m) →
      (handleSessionMessage s msg).sess.peerId = some pid ∧ m = msg) ∧
    (∀ s msg pid key, s.peerId = none → msg.type = 1 →
      parseHandshakePayload msg.payload = some (pid, key) → pid ≠ [] →
      (handleSessionMessage s msg).sess.peerId = some pid ∧
      (handleSessionMessage s msg).userCallback = some (pid, msg)) ∧
    (∀ s frames, s.peerId = none →
      (∀ f ∈ frames, bindingHandshake f = false) →
      processFrames s frames = (s, [])) := by
  refine ⟨?_, ?_, ?_⟩
  · intro s msg pid m h
    simp only [handleSessionMessage] at h ⊢
    cases hb : (if msg.type = 1 ∧ s.peerId = none then
        match parseHandshakePayload msg.payload with
        | some (pid, _) =>
          ({ s with peerId := if pid = [] then none else some pid }, !s.isOutgoing)
        | none => (s, false)
      else (s, false)).1.peerId with
    | none => rw [hb] at h; simp at h
    | some q => rw [hb] at h; simp at h; exact ⟨by rw [h.1], h.2.symm⟩
  · intro s msg pid key hunbound htype hparse hpne
    obtain ⟨sp, so⟩ := s
    have hsp : sp = none := hunbound
    subst hsp
    have hrec : handleSessionMessage ⟨none, so⟩ msg =
        ⟨⟨some pid, so⟩, !so, some (pid, msg)⟩ := by
      simp only [handleSessionMessage, htype, hparse, true_and, if_true]
      rw [if_neg hpne]
      rfl
    rw [hrec]
    exact ⟨rfl, rfl⟩
  · intro s frames hunbound hnohs
    obtain ⟨sp, so⟩ := s
    have hsp : sp = none := hunbound
    subst hsp
    induction frames with
    | nil => rfl
    | cons f rest ih =>
      obtain ⟨h1, h2⟩ := nonbinding_frame_inert so f (hnohs f (by simp))
      simp only [processFrames, h1, h2]
      rw [ih (fun g hg => hnohs g (by simp [hg]))]
      rfl

/-- Witness for C8 (amended): an already-bound session keeps its id when a
frame is forwarded; an unbound session receiving a binding handshake binds
to the parsed id and delivers that frame; and an unbound session
processing a TEXT frame and a zero-length-id handshake delivers nothing
and stays unbound. -/
theorem callback_only_with_bound_id_witness :
    (handleSessionMessage ⟨some [7], true⟩ ⟨0, [1], 2⟩).sess.peerId = some [7] ∧
    ((handleSessionMessage ⟨none, false⟩ ⟨1, [0, 1, 66, 3], 0⟩).sess.peerId =
        some [66] ∧
      (handleSessionMessage ⟨none, false⟩ ⟨1, [0, 1, 66, 3], 0⟩).userCallback =
        some ([66], ⟨1, [0, 1, 66, 3], 0⟩)) ∧
    processFrames ⟨none, true⟩ [⟨0, [104, 105], 5⟩, ⟨1, [0, 0], 0⟩] =
      (⟨none, true⟩, []) :=
  ⟨(callback_only_with_bound_id.1 ⟨some [7], true⟩ ⟨0, [1], 2⟩ [7] ⟨0, [1], 2⟩ rfl).1,
   callback_only_with_bound_id.2.1 ⟨none, false⟩ ⟨1, [0, 1, 66, 3], 0⟩ [66] [3]
     rfl rfl (by decide) (by decide),
   callback_only_with_bound_id.2.2 ⟨none, true⟩ [⟨0, [104, 105], 5⟩, ⟨1, [0, 0], 0⟩]
     rfl (by decide)⟩

/-- Claim C9: registry uniqueness.  After any finite sequence of `addPeer`,
`removePeer` and `updatePeerStatus` operations starting from the empty
registry, the registry holds at most one entry per peer id (the key list is
duplicate-free), and `getAllPeers` returns exactly the ids added and not
subsequently removed — no duplicate and no missing id — as computed by the
reference id set `specIds`. -/
theorem registry_uniqueness_exact (ops : List RegOp) :
    ((getAllPeers (applyOps [] ops)).map (fun q => q.id)).Nodup ∧
    (getAllPeers (applyOps [] ops)).map (fun q => q.id) = specIds [] ops := by
  have h : (applyOps [] ops).map (fun q => q.id) = specIds [] ops := by
    have h0 := ids_applyOps ops []
    simpa using h0
  exact ⟨by rw [show getAllPeers (applyOps [] ops) = applyOps [] ops from rfl, h]
            exact specIds_nodup ops [] (by simp),
         by rw [show getAllPeers (applyOps [] ops) = applyOps [] ops from rfl, h]⟩

/-- Claim C10: handshake payload round-trip.  For every peer id shorter
than 65536 bytes and every public key, parsing the payload built by
`createHandshakeMessage` recovers exactly the original id and key; for ids
of 65536 bytes or more the 2-byte length field wraps and the round trip no
longer holds — whatever id the parse returns differs from the original. -/
theorem handshake_payload_roundtrip (peerId publicKey : List Nat) (now : Int) :
    (peerId.length < 2 ^ 16 →
      parseHandshakePayload
          (Message.createHandshakeMessage peerId publicKey now).payload =
        some (peerId, publicKey)) ∧
    (2 ^ 16 ≤ peerId.length →
      ∀ pid key,
        parseHandshakePayload
            (Message.createHandshakeMessage peerId publicKey now).payload =
          some (pid, key) → pid ≠ peerId) := by
  constructor
  · intro h
    rw [parse_create, Nat.mod_eq_of_lt h, List.take_left, List.drop_left]
  · intro h pid key hparse hcontra
    rw [parse_create] at hparse
    simp only [Option.some.injEq, Prod.mk.injEq] at hparse
    obtain ⟨hpid, _⟩ := hparse
    have hmod : peerId.length % 2 ^ 16 < 2 ^ 16 := Nat.mod_lt _ (by norm_num)
    have hle : peerId.length % 2 ^ 16 ≤ peerId.length := Nat.mod_le _ _
    have hlen : pid.length = peerId.length % 2 ^ 16 := by
      rw [← hpid] at *
      rw [List.length_take, List.length_append]
      omega
    rw [hcontra] at hlen
    omega

/-- Witness for C10: the round trip at a 1-byte id, and the failure of the
round trip at a 65536-byte id. -/
theorem handshake_payload_roundtrip_witness :
    parseHandshakePayload
        (Message.createHandshakeMessage [65] [9, 8] 0).payload = some ([65], [9, 8]) ∧
    (∀ pid key,
      parseHandshakePayload
          (Message.createHandshakeMessage (List.replicate 65536 0) [] 0).payload =
        some (pid, key) → pid ≠ List.replicate 65536 0) :=
  ⟨(handshake_payload_roundtrip [65] [9, 8] 0).1 (by decide),
   (handshake_payload_roundtrip (List.replicate 65536 0) [] 0).2
     (by rw [List.length_replicate]; norm_num)⟩
